import Mathlib

/-!
Shallow embedding of the score-aggregation and resilient-JSON-ingestion core
of `src/trophi_app.py` (the Trophi.ai "Scale Decision Engine" Streamlit app).

Modelling conventions:
* Python values that can appear in parsed JSON or in the hand-written
  fallback dictionaries are modelled by the inductive type `PyVal`.  Python
  `int` and `float` are kept distinct; floats are modelled as exact rational
  numbers (`ℚ`), so binary floating-point representation error is outside
  the model.
* Python dicts are modelled as ordered association lists with unique keys
  (insertion order preserved; a duplicated key in a JSON text overwrites the
  value in place, as `json.loads` does).
* `re` substitutions of the source are modelled by dedicated character-list
  functions.  Recursion that is not structural uses an explicit fuel
  argument (always called with fuel larger than the input length), so every
  definition is executable and kernel-reducible.
* Streamlit calls (`st.warning`, `st.error`, expanders, ...) are UI side
  effects carrying no data; they are dropped.
* `json.loads` is modelled on the RFC 8259 grammar (the default
  `NaN`/`Infinity` extension and `\uXXXX` surrogate pairing are out of the
  model; no claim exercises them).
-/

set_option allowUnsafeReducibility true
attribute [local semireducible] Rat.add Rat.mul Rat.inv Rat.sub Rat.ofScientific

namespace Trophi

/-- A Python value as produced by `json.loads` or written literally in the
fallback dictionaries of `trophi_app.py`. -/
inductive PyVal where
  | null : PyVal
  | bool (b : Bool) : PyVal
  | int (n : ℤ) : PyVal
  | float (q : ℚ) : PyVal
  | str (s : String) : PyVal
  | arr (xs : List PyVal) : PyVal
  | obj (kvs : List (String × PyVal)) : PyVal

/-- Association-list lookup, modelling Python `dict` key lookup. -/
def lookupKV (k : String) : List (String × PyVal) → Option PyVal
  | [] => none
  | (k1, v) :: rest => if k1 = k then some v else lookupKV k rest

/-- Python `dict.get(key, default)`. -/
def getKV (kvs : List (String × PyVal)) (k : String) (d : PyVal) : PyVal :=
  (lookupKV k kvs).getD d

/-- Python dict assignment `d[k] = v`: overwrites in place, keeping the
position of an existing key, else appends. -/
def insertKV (kvs : List (String × PyVal)) (k : String) (v : PyVal) : List (String × PyVal) :=
  match kvs with
  | [] => [(k, v)]
  | (k1, v1) :: rest => if k1 = k then (k, v) :: rest else (k1, v1) :: insertKV rest k v

/-! ### A `json.loads` model -/

/-- JSON whitespace accepted between tokens by `json.loads`. -/
def isJsonWs (c : Char) : Bool := c = ' ' || c = '\t' || c = '\n' || c = '\r'

/-- Skip JSON inter-token whitespace. -/
def skipJsonWs : List Char → List Char
  | [] => []
  | c :: cs => if isJsonWs c then skipJsonWs cs else c :: cs

/-- Hexadecimal digit value. -/
def hexVal (c : Char) : Option ℕ :=
  if '0' ≤ c ∧ c ≤ '9' then some (c.toNat - 48)
  else if 'a' ≤ c ∧ c ≤ 'f' then some (c.toNat - 87)
  else if 'A' ≤ c ∧ c ≤ 'F' then some (c.toNat - 55)
  else none

/-- Value of a decimal digit character. -/
def digitVal (c : Char) : ℕ := c.toNat - 48

/-- The natural number denoted by a list of decimal digit characters. -/
def natOfDigits (ds : List Char) : ℕ := ds.foldl (fun a c => a * 10 + digitVal c) 0

/-- Body of a JSON string literal, opening quote already consumed.  Strict
mode: raw control characters inside a string are rejected, as `json.loads`
does by default. -/
def parseStrBody : List Char → List Char → Option (String × List Char)
  | _, [] => none
  | acc, c :: cs =>
    if c = '"' then some (String.mk acc.reverse, cs)
    else if c = '\\' then
      match cs with
      | [] => none
      | e :: cs1 =>
        if e = '"' then parseStrBody ('"' :: acc) cs1
        else if e = '\\' then parseStrBody ('\\' :: acc) cs1
        else if e = '/' then parseStrBody ('/' :: acc) cs1
        else if e = 'b' then parseStrBody ('\x08' :: acc) cs1
        else if e = 'f' then parseStrBody ('\x0c' :: acc) cs1
        else if e = 'n' then parseStrBody ('\n' :: acc) cs1
        else if e = 'r' then parseStrBody ('\r' :: acc) cs1
        else if e = 't' then parseStrBody ('\t' :: acc) cs1
        else if e = 'u' then
          match cs1 with
          | h1 :: h2 :: h3 :: h4 :: cs2 =>
            match hexVal h1, hexVal h2, hexVal h3, hexVal h4 with
            | some a, some b, some c2, some d =>
              parseStrBody (Char.ofNat (((a * 16 + b) * 16 + c2) * 16 + d) :: acc) cs2
            | _, _, _, _ => none
          | _ => none
        else none
    else if c.toNat < 32 then none
    else parseStrBody (c :: acc) cs

/-- JSON number grammar `-? (0 | [1-9][0-9]*) (. [0-9]+)? ([eE][+-]?[0-9]+)?`.
Yields a Python `int` when neither fraction nor exponent is present, a
`float` otherwise, exactly as `json.loads` does. -/
def parseJsonNumber (cs : List Char) : Option (PyVal × List Char) :=
  let neg : Bool := match cs with
    | '-' :: _ => true
    | _ => false
  let cs1 : List Char := match cs with
    | '-' :: t => t
    | t => t
  let ip := cs1.takeWhile Char.isDigit
  let cs2 := cs1.drop ip.length
  if ip.isEmpty then none
  else if 1 < ip.length ∧ ip.headD 'x' = '0' then none
  else
    let hasFrac : Bool := match cs2 with | '.' :: _ => true | _ => false
    let afterDot : List Char := match cs2 with | '.' :: t => t | t => t
    let frac := if hasFrac then afterDot.takeWhile Char.isDigit else []
    let cs3 := if hasFrac then afterDot.drop frac.length else cs2
    if hasFrac ∧ frac.isEmpty then none
    else
      let hasExp : Bool := match cs3 with | 'e' :: _ => true | 'E' :: _ => true | _ => false
      let afterE : List Char := match cs3 with | 'e' :: t => t | 'E' :: t => t | t => t
      let esgn : ℤ := match afterE with
        | '-' :: _ => -1
        | _ => 1
      let afterSgn : List Char := match afterE with
        | '+' :: t => t
        | '-' :: t => t
        | t => t
      let eds := if hasExp then afterSgn.takeWhile Char.isDigit else []
      let cs4 := if hasExp then afterSgn.drop eds.length else cs3
      if hasExp ∧ eds.isEmpty then none
      else
        let sgn : ℤ := if neg then -1 else 1
        if hasFrac ∨ hasExp then
          let mant : ℚ := (natOfDigits ip : ℚ) + (natOfDigits frac : ℚ) / (10 : ℚ) ^ frac.length
          some (.float ((sgn : ℚ) * mant * (10 : ℚ) ^ (esgn * (natOfDigits eds : ℤ))), cs4)
        else
          some (.int (sgn * (natOfDigits ip : ℕ)), cs4)

/-- Work items of the JSON parser: a value to parse, the members of an
object after its opening brace, or the elements of an array after its
opening bracket. -/
inductive PTask where
  | val (cs : List Char) : PTask
  | members (first : Bool) (cs : List Char) (acc : List (String × PyVal)) : PTask
  | elems (first : Bool) (cs : List Char) (acc : List PyVal) : PTask

/-- One fuelled recursive-descent JSON parser covering values, object
members and array elements.  Fuel is structural, so the definition is
kernel-reducible; it is always called with fuel at least `2 * length + 16`,
which exceeds the recursion depth of any input. -/
def parseStep : Nat → PTask → Option (PyVal × List Char)
  | 0, _ => none
  | fuel + 1, PTask.val cs =>
    match skipJsonWs cs with
    | [] => none
    | c :: rest =>
      if c = '\x7b' then parseStep fuel (PTask.members true rest [])
      else if c = '[' then parseStep fuel (PTask.elems true rest [])
      else if c = '"' then
        match parseStrBody [] rest with
        | some (s, cs1) => some (.str s, cs1)
        | none => none
      else if c = 't' then
        match rest with
        | 'r' :: 'u' :: 'e' :: t => some (.bool true, t)
        | _ => none
      else if c = 'f' then
        match rest with
        | 'a' :: 'l' :: 's' :: 'e' :: t => some (.bool false, t)
        | _ => none
      else if c = 'n' then
        match rest with
        | 'u' :: 'l' :: 'l' :: t => some (.null, t)
        | _ => none
      else parseJsonNumber (c :: rest)
  | fuel + 1, PTask.members first cs acc =>
    match skipJsonWs cs with
    | [] => none
    | c :: rest =>
      -- a closing brace always ends the object here; a trailing comma never
      -- reaches this branch (it is consumed below before recursing)
      if c = '\x7d' then some (.obj acc, rest)
      else
        match (if first then some (c :: rest) else
            match c :: rest with
            | ',' :: t => some (skipJsonWs t)
            | _ => none) with
        | none => none
        | some csK =>
          match csK with
          | '"' :: t =>
            match parseStrBody [] t with
            | none => none
            | some (k, cs1) =>
              match skipJsonWs cs1 with
              | ':' :: cs2 =>
                match parseStep fuel (PTask.val cs2) with
                | none => none
                | some (v, cs3) => parseStep fuel (PTask.members false cs3 (insertKV acc k v))
              | _ => none
          | _ => none
  | fuel + 1, PTask.elems first cs acc =>
    match skipJsonWs cs with
    | [] => none
    | c :: rest =>
      if c = ']' then some (.arr acc, rest)
      else
        match (if first then some (c :: rest) else
            match c :: rest with
            | ',' :: t => some (skipJsonWs t)
            | _ => none) with
        | none => none
        | some csE =>
          match parseStep fuel (PTask.val csE) with
          | none => none
          | some (v, cs1) => parseStep fuel (PTask.elems false cs1 (acc ++ [v]))

/-- `json.loads`: parse exactly one JSON value and require that only
whitespace follows it (`Extra data` is an error in Python). -/
def json_loads (s : String) : Option PyVal :=
  match parseStep (2 * s.length + 16) (PTask.val s.data) with
  | some (v, rest) => if skipJsonWs rest = [] then some v else none
  | none => none

/-! ### The cleaning passes of `parse_json_safely` (lines 32-39) -/

/-- `re.sub(r'[\x00-\x1f\x7f-\x9f]', ' ', text)`: C0 and C1 control
characters and DEL. -/
def isCtrlChar (c : Char) : Bool :=
  c.toNat ≤ 0x1f || (0x7f ≤ c.toNat && c.toNat ≤ 0x9f)

/-- Replace each control character by a space. -/
def replaceCtrl (cs : List Char) : List Char :=
  cs.map fun c => if isCtrlChar c then ' ' else c

/-- Python `\s` on `str`: ASCII whitespace plus the Unicode space
characters (the ASCII control members of the class are already spaces after
`replaceCtrl`). -/
def isPySpace (c : Char) : Bool :=
  c = ' ' || c = '\t' || c = '\n' || c = '\r' || c = '\x0b' || c = '\x0c' ||
  c.toNat = 0xa0 || c.toNat = 0x1680 || (0x2000 ≤ c.toNat && c.toNat ≤ 0x200a) ||
  c.toNat = 0x2028 || c.toNat = 0x2029 || c.toNat = 0x202f ||
  c.toNat = 0x205f || c.toNat = 0x3000

/-- `re.sub(r'\s+', ' ', text)`: collapse each whitespace run to one space.
The flag records whether the previous character belonged to a run. -/
def collapseWsAux : Bool → List Char → List Char
  | _, [] => []
  | prevWs, c :: cs =>
    if isPySpace c then
      if prevWs then collapseWsAux true cs else ' ' :: collapseWsAux true cs
    else c :: collapseWsAux false cs

/-- Whitespace-run collapse pass. -/
def collapseWs (cs : List Char) : List Char := collapseWsAux false cs

/-- `re.sub(r'```json|```', '', text, flags=re.IGNORECASE)`: at each triple
backtick the alternation first tries to also consume a case-insensitive
`json`.  Fuel is structural (each step consumes at least one character, so
`length + 1` always suffices). -/
def stripFences : Nat → List Char → List Char
  | 0, cs => cs
  | _ + 1, [] => []
  | f + 1, c :: cs =>
    if c = '\x60' then
      match cs with
      | c2 :: c3 :: rest =>
        if c2 = '\x60' ∧ c3 = '\x60' then
          match rest with
          | j :: s1 :: o :: n1 :: rest2 =>
            if j.toLower = 'j' ∧ s1.toLower = 's' ∧ o.toLower = 'o' ∧ n1.toLower = 'n' then
              stripFences f rest2
            else stripFences f rest
          | _ => stripFences f rest
        else c :: stripFences f cs
      | _ => c :: stripFences f cs
    else c :: stripFences f cs

/-- Lazy scan for `](`, the `.*?\]\(` step of the markdown-link pattern. -/
def findBrackParen : List Char → Option (List Char)
  | ']' :: '(' :: rest => some rest
  | _ :: cs => findBrackParen cs
  | [] => none

/-- Lazy scan past the first `)`. -/
def findCloseParen : List Char → Option (List Char)
  | ')' :: rest => some rest
  | _ :: cs => findCloseParen cs
  | [] => none

/-- `re.sub(r'\[.*?\]\(.*?\)', '', text)`: delete markdown links. -/
def stripLinks : Nat → List Char → List Char
  | 0, cs => cs
  | _ + 1, [] => []
  | f + 1, c :: cs =>
    if c = '[' then
      match findBrackParen cs with
      | some afterBP =>
        match findCloseParen afterBP with
        | some rest => stripLinks f rest
        | none => c :: stripLinks f cs
      | none => c :: stripLinks f cs
    else c :: stripLinks f cs

/-- Lazy scan past the first `**`. -/
def findStars : List Char → Option (List Char)
  | '*' :: '*' :: rest => some rest
  | _ :: cs => findStars cs
  | [] => none

/-- `re.sub(r'\*\*.*?\*\*', '', text)`: delete bold spans. -/
def stripBold : Nat → List Char → List Char
  | 0, cs => cs
  | _ + 1, [] => []
  | f + 1, c :: cs =>
    if c = '*' then
      match cs with
      | '*' :: cs2 =>
        match findStars cs2 with
        | some rest => stripBold f rest
        | none => c :: stripBold f cs
      | _ => c :: stripBold f cs
    else c :: stripBold f cs

/-- Index of the first occurrence of `c` (`str.find`); returns the length
when `c` is absent, so callers guard with a containment test. -/
def firstIdx (c : Char) : List Char → ℕ
  | [] => 0
  | x :: xs => if x = c then 0 else firstIdx c xs + 1

/-- Python `str.strip()`. -/
def pyStrip (cs : List Char) : List Char :=
  ((cs.dropWhile fun c => isPySpace c).reverse.dropWhile fun c => isPySpace c).reverse

/-- The brace-repair step of `parse_json_safely` (lines 50-54): when opening
braces outnumber closing braces, the deficit of closing braces is appended.
Nothing else is changed — in particular the source has no branch for the
opposite imbalance. -/
def repairBraces (cs : List Char) : List Char :=
  if cs.count '\x7b' > cs.count '\x7d' then
    cs ++ List.replicate (cs.count '\x7b' - cs.count '\x7d') '\x7d'
  else cs

/-- The five cleaning passes in source order (lines 32-39). -/
def cleanText (s : String) : List Char :=
  let c1 := replaceCtrl s.data
  let c2 := collapseWs c1
  let c3 := stripFences (c2.length + 1) c2
  let c4 := stripLinks (c3.length + 1) c3
  stripBold (c4.length + 1) c4

/-- Boundary search (`find('{')` / `rfind('}')`), inclusive slice, `strip`,
brace repair and the final `json.loads` of `parse_json_safely` (lines
41-57).  `none` models the exception path: missing boundaries
(`ValueError`) or `json.loads` failing on the repaired slice. -/
def extractObj (s : String) : Option PyVal :=
  let cs := cleanText s
  if cs.contains '\x7b' && cs.contains '\x7d' then
    let start := firstIdx '\x7b' cs
    let stop := cs.length - 1 - firstIdx '\x7d' cs.reverse
    let sl := pyStrip ((cs.drop start).take (stop + 1 - start))
    json_loads (String.mk (repairBraces sl))
  else none

/-! ### Placeholder replacement (lines 59-80) -/

/-- The placeholder table of `parse_json_safely`, in dict insertion order. -/
def placeholder_map : List (String × String) :=
  [("$XM", "$25M"),
   ("X,XXX", "15,000"),
   ("X%", "7.3%"),
   ("YOUR_RATIONALE", "Limited public data - requires manual research")]

/-- Is `pat` a prefix of `cs`? -/
def isPrefixCh : List Char → List Char → Bool
  | [], _ => true
  | _ :: _, [] => false
  | p :: ps, c :: cs => p = c && isPrefixCh ps cs

/-- Python substring containment `pat in s`. -/
def containsSub (pat : List Char) : List Char → Bool
  | [] => pat.isEmpty
  | c :: cs => isPrefixCh pat (c :: cs) || containsSub pat cs

/-- Python `pat in s` on strings. -/
def strContains (s pat : String) : Bool := containsSub pat.data s.data

/-- Python `str.replace(pat, rep)`: all non-overlapping occurrences, left to
right.  `pat` is nonempty at every call site, so each step consumes at
least one character and fuel `length + 1` suffices. -/
def replaceSub (pat rep : List Char) : Nat → List Char → List Char
  | 0, cs => cs
  | _ + 1, [] => []
  | f + 1, c :: cs =>
    if isPrefixCh pat (c :: cs) then rep ++ replaceSub pat rep f ((c :: cs).drop pat.length)
    else c :: replaceSub pat rep f cs

/-- `str.replace` on strings. -/
def pyReplace (s pat rep : String) : String :=
  String.mk (replaceSub pat.data rep.data (s.length + 1) s.data)

/-- The string branch of `replace_placeholders` (lines 72-77): every
placeholder occurring in the string is replaced *inside the string* by its
fixed default from `placeholder_map` — not by any schema fallback value. -/
def applyPlaceholders (s : String) : String :=
  placeholder_map.foldl (fun acc p => pyReplace acc p.1 p.2) s

/-- `replace_placeholders` (lines 67-78), recursing through dicts and
lists.  Strings are handled at any fuel; the fuel (structural, so the
definition is kernel-reducible) only limits container depth and is always
called well above the depth of the parsed value. -/
def replacePlaceholders : Nat → PyVal → PyVal
  | _, .str s => .str (applyPlaceholders s)
  | 0, v => v
  | f + 1, .arr xs => .arr (xs.map (replacePlaceholders f))
  | f + 1, .obj kvs => .obj (kvs.map fun kv => (kv.1, replacePlaceholders f kv.2))
  | _, v => v

/-! ### Fallback completion and `parse_json_safely` itself -/

/-- The fallback-completion loop of `parse_json_safely` (lines 82-87): each
key of the fallback dict that is missing from the parsed result is appended
with its fallback value.  The fill is top-level only: present keys are left
untouched, whatever their value. -/
def fillMissing (d fb : List (String × PyVal)) : List (String × PyVal) :=
  fb.foldl (fun acc kv => if (lookupKV kv.1 acc).isSome then acc else acc ++ [kv]) d

/-- `parse_json_safely(text, phase, fallback_data)` for a non-`None`
fallback dict.  A successful parse is necessarily a dict because the parsed
slice starts with an opening brace, so the non-dict arm is unreachable; it
is mapped to the fallback, which is also what the source produces there
(item assignment on a non-dict raises and is caught).  On any failure the
fallback dict itself is returned; the function itself never raises.
`replace_placeholders` is applied to the parsed dict before the fill; the
per-entry map below is that application written entrywise. -/
def parse_json_safely (text : String) (fallback_data : List (String × PyVal)) :
    List (String × PyVal) :=
  match extractObj text with
  | some (.obj kvs) =>
      fillMissing (kvs.map fun kv => (kv.1, replacePlaceholders (2 * text.length + 16) kv.2))
        fallback_data
  | _ => fallback_data

/-! ### The fallback dictionaries (lines 131-168) -/

/-- `FALLBACK_MARKET`. -/
def FALLBACK_MARKET : List (String × PyVal) :=
  [("tam", .str "$25M"), ("sam", .str "$12M"), ("som", .str "$1.2M"),
   ("active_users", .str "Undisclosed (est. 10K-50K from similar titles)"),
   ("source", .str "Industry estimation - REQUIRES MANUAL VERIFICATION"),
   ("cagr", .str "5-10% (conservative estimate)"),
   ("confidence", .int 35),
   ("rationale", .str "Limited public data - conservative estimate based on similar racing sim titles")]

/-- `FALLBACK_TECH`. -/
def FALLBACK_TECH : List (String × PyVal) :=
  [("method", .str "UDP (assume telemetry parsing required)"),
   ("endpoint", .str "Standard port - research needed"),
   ("hours", .int 120),
   ("cost_at_120_hr", .str "$14,400"),
   ("timeline_days", .int 14),
   ("qa_days", .int 5),
   ("team_pct_of_sprint", .float 37.5),
   ("parallelizable", .bool false),
   ("risk_level", .str "Medium"),
   ("source", .str "Trophi engineering benchmarks")]

/-- `FALLBACK_FINANCIAL`. -/
def FALLBACK_FINANCIAL : List (String × PyVal) :=
  [("base", .obj [("conversion", .float 1.0), ("arr", .str "$180K"), ("payback", .str "120 days"),
                  ("npv", .str "$0.4M"), ("ltv", .str "$180")]),
   ("bull", .obj [("conversion", .float 2.0), ("arr", .str "$360K"), ("payback", .str "75 days"),
                  ("npv", .str "$0.9M"), ("ltv", .str "$360")]),
   ("bear", .obj [("conversion", .float 0.5), ("arr", .str "$90K"), ("payback", .str "180 days"),
                  ("npv", .str "$0.1M"), ("ltv", .str "$90")])]

/-- `FALLBACK_STRATEGY`. -/
def FALLBACK_STRATEGY : List (String × PyVal) :=
  [("fit_score", .int 5),
   ("alignment", .str "Unknown (requires product review)"),
   ("moat_benefit", .str "Limited information available"),
   ("competitors", .arr [.str "Manual research required"]),
   ("velocity", .int 5),
   ("speedrun_leverage", .str "Investigate A16Z network connections"),
   ("risk_level", .str "Unknown")]

/-! ### Scalar coercion utilities (lines 104-129) -/

/-- The characters kept by `re.sub(r'[^\d]', '', s)` (`\d` also matches
non-ASCII decimal digits in Python; the model is ASCII, within which every
claim and call site stays). -/
def digitsOf (s : String) : List Char := s.data.filter Char.isDigit

/-- Python `int()` on a float: truncation toward zero. -/
def ratTrunc (q : ℚ) : ℤ := if 0 ≤ q then ⌊q⌋ else ⌈q⌉

/-- Consume one optional leading sign; the flag is whether it was `-`. -/
def splitSign (cs : List Char) : Bool × List Char :=
  match cs with
  | '-' :: t => (true, t)
  | '+' :: t => (false, t)
  | t => (false, t)

/-- Python `float(str)` on finite decimal literals: optional surrounding
whitespace, optional sign, digits with an optional single point, optional
exponent.  The `inf`/`nan` literals, digit underscores and overflow are
outside the model (at the modelled call sites those inputs end in the same
fallback as a parse failure, because `int()` of such a float raises). -/
def pyFloat? (s : String) : Option ℚ :=
  let cs := pyStrip s.data
  let neg := (splitSign cs).1
  let cs1 := (splitSign cs).2
  let ip := cs1.takeWhile Char.isDigit
  let cs2 := cs1.drop ip.length
  let hasDot : Bool := cs2.headD ' ' = '.'
  let afterDot := if hasDot then cs2.tail else cs2
  let fp := if hasDot then afterDot.takeWhile Char.isDigit else []
  let cs3 := if hasDot then afterDot.drop fp.length else cs2
  if ip.isEmpty ∧ fp.isEmpty then none
  else
    let mant : ℚ := (natOfDigits ip : ℚ) + (natOfDigits fp : ℚ) / (10 : ℚ) ^ fp.length
    let m : ℚ := if neg then -mant else mant
    match cs3 with
    | [] => some m
    | e :: cs4 =>
      if e = 'e' ∨ e = 'E' then
        let esgn : ℤ := if (splitSign cs4).1 then -1 else 1
        let cs5 := (splitSign cs4).2
        let eds := cs5.takeWhile Char.isDigit
        if eds.isEmpty ∨ ¬(cs5.drop eds.length).isEmpty then none
        else some (m * (10 : ℚ) ^ (esgn * (natOfDigits eds : ℤ)))
      else none

/-- `safe_int(value, default=0)` (lines 105-112).  On a string, every
non-digit character (signs, points, currency symbols, unit letters, ...)
is deleted and the remaining digits are read as a non-negative integer; an
empty digit string gives the default.  On other values Python `int()`
applies: ints pass through, floats truncate toward zero, bools count as
0/1, and `None`/lists/dicts raise into the `except` arm, giving the
default. -/
def safe_int (value : PyVal) (default : ℤ) : ℤ :=
  match value with
  | .str s =>
    let ds := digitsOf s
    if ds.isEmpty then default else (natOfDigits ds : ℤ)
  | .int n => n
  | .float q => ratTrunc q
  | .bool b => if b then 1 else 0
  | _ => default

/-- `safe_float(value, default=0.0)` (lines 114-118): Python `float()`,
with every failure giving the default. -/
def safe_float (value : PyVal) (default : ℚ) : ℚ :=
  match value with
  | .str s => (pyFloat? s).getD default
  | .int n => (n : ℚ)
  | .float q => q
  | .bool b => if b then 1 else 0
  | _ => default

/-- Comma-space join. -/
def joinComma : List String → String
  | [] => ""
  | [x] => x
  | x :: xs => x ++ ", " ++ joinComma xs

/-- Decimal digits of the fraction `r / d` (`r < d`), emitted while the
remainder is nonzero; the fuel bounds the digit count. -/
def fracDigits : Nat → ℕ → ℕ → List Char
  | 0, _, _ => []
  | _ + 1, 0, _ => []
  | f + 1, r, d => Char.ofNat (48 + r * 10 / d) :: fracDigits f (r * 10 % d) d

/-- `str()` of a Python float under the exact-rational model: sign, integer
part, point, fractional digits (at least one, as floats always print). -/
def pyFloatStr (q : ℚ) : String :=
  let sgn := if q < 0 then "-" else ""
  let a := |q|
  let ipart := (⌊a⌋).toNat
  let fr := a - (ipart : ℚ)
  let ds := fracDigits 60 fr.num.toNat fr.den
  sgn ++ toString ipart ++ "." ++ (if ds.isEmpty then "0" else String.mk ds)

/-- Python `repr()`, as `str()` uses on container elements.  Strings are
rendered with single quotes (Python chooses quotes dynamically; the
pipeline never applies `str()` to containers holding quotes, so the
approximation is inert). -/
def pyRepr : Nat → PyVal → String
  | _, .null => "None"
  | _, .bool b => if b then "True" else "False"
  | _, .int n => toString n
  | _, .float q => pyFloatStr q
  | _, .str s => "'" ++ s ++ "'"
  | 0, _ => ""
  | f + 1, .arr xs => "[" ++ joinComma (xs.map (pyRepr f)) ++ "]"
  | f + 1, .obj kvs =>
    "\x7b" ++ joinComma (kvs.map fun kv => "'" ++ kv.1 ++ "': " ++ pyRepr f kv.2) ++ "\x7d"

/-- Python `str()`. -/
def pyStr (v : PyVal) : String :=
  match v with
  | .str s => s
  | .null => "None"
  | .bool b => if b then "True" else "False"
  | .int n => toString n
  | .float q => pyFloatStr q
  | v => pyRepr 64 v

/-- `parse_cost_to_number(cost_str)` (lines 120-129): `str()` the input,
strip `$`, `,` and spaces, then branch on an upper-case `K` or `M` unit and
scale; every failure path of the bare `try` returns the fixed built-in
fallback `0` (the function takes no fallback argument).  A leading minus
sign survives all of the cleaning, so negative magnitudes are parsed, not
rejected. -/
def parse_cost_to_number (cost_str : PyVal) : ℤ :=
  let clean := pyReplace (pyReplace (pyReplace (pyStr cost_str) "$" "") "," "") " " ""
  if strContains clean "K" then
    match pyFloat? (pyReplace clean "K" "") with
    | some q => ratTrunc (q * 1000)
    | none => 0
  else if strContains clean "M" then
    match pyFloat? (pyReplace clean "M" "") with
    | some q => ratTrunc (q * 1000000)
    | none => 0
  else
    match pyFloat? clean with
    | some q => ratTrunc q
    | none => 0

/-! ### The scorer (lines 376-397) -/

/-- The `users` computation (lines 377-384): `str()` the `active_users`
field (default `'0'`); a string containing `Undisclosed` gives 25000;
otherwise only the digits are kept, and both `int('')` raising and a
parsed zero (`or 25000`) give 25000. -/
def users (market_data : List (String × PyVal)) : ℕ :=
  let users_str := pyStr (getKV market_data "active_users" (.str "0"))
  if strContains users_str "Undisclosed" then 25000
  else
    let ds := digitsOf users_str
    if ds.isEmpty then 25000
    else if natOfDigits ds = 0 then 25000
    else natOfDigits ds

/-- `market_score = min(10, users / 10000) * 3.5` (line 387). -/
def market_score (market_data : List (String × PyVal)) : ℚ :=
  min 10 ((users market_data : ℚ) / 10000) * 3.5

/-- `safe_int(tech_data.get('hours', 999))` (lines 388, 407). -/
def tech_hours (tech_data : List (String × PyVal)) : ℤ :=
  safe_int (getKV tech_data "hours" (.int 999)) 0

/-- `tech_score = (10 - min(hours / 48, 10)) * 2.5` (line 388). -/
def tech_score (tech_data : List (String × PyVal)) : ℚ :=
  (10 - min ((tech_hours tech_data : ℚ) / 48) 10) * 2.5

/-- `safe_float(fin_data.get('base', {}).get('conversion', 1.0))` (line
389).  A missing `base` makes `{}.get` yield the default `1.0`.  A present
non-dict `base` would raise `AttributeError` outside any handler on line
389; the pipeline cannot reach the scorer in that state (phase 3 already
replaced such a dict by `FALLBACK_FINANCIAL`), and the model maps that
unreachable arm to 0. -/
def base_conversion (fin_data : List (String × PyVal)) : ℚ :=
  match lookupKV "base" fin_data with
  | some (.obj b) => safe_float (getKV b "conversion" (.float 1.0)) 0
  | none => safe_float (.float 1.0) 0
  | some _ => 0

/-- `revenue_score = conversion * 10 / 1.5 * 2.5` (line 389). -/
def revenue_score (fin_data : List (String × PyVal)) : ℚ :=
  base_conversion fin_data * 10 / 1.5 * 2.5

/-- `safe_int(strategy_data.get('fit_score', 5))` (line 390). -/
def fit_score_val (strategy_data : List (String × PyVal)) : ℤ :=
  safe_int (getKV strategy_data "fit_score" (.int 5)) 0

/-- `strategy_score = fit_score * 1.5` (line 390). -/
def strategy_score (strategy_data : List (String × PyVal)) : ℚ :=
  (fit_score_val strategy_data : ℚ) * 1.5

/-- Round half to even, the rounding rule of Python `round` under the
exact-rational model of floats. -/
def roundHalfEven (q : ℚ) : ℤ :=
  if q - (⌊q⌋ : ℚ) < 1/2 then ⌊q⌋
  else if 1/2 < q - (⌊q⌋ : ℚ) then ⌊q⌋ + 1
  else if ⌊q⌋ % 2 = 0 then ⌊q⌋ else ⌊q⌋ + 1

/-- Python `round(x, 1)` under the exact-rational model. -/
def pyRound1 (q : ℚ) : ℚ := (roundHalfEven (q * 10) : ℚ) / 10

/-- `overall_score = round(market_score + tech_score + revenue_score +
strategy_score, 1)` (line 397).  The source applies no clamp of any
kind. -/
def overall_score (market_data tech_data fin_data strategy_data : List (String × PyVal)) : ℚ :=
  pyRound1 (market_score market_data + tech_score tech_data +
    revenue_score fin_data + strategy_score strategy_data)

/-- Modelled from the spec: the risk-multiplier table of §4.4.  No risk
multiplier and no `risk_adjusted_score` occur anywhere in
`src/trophi_app.py` (the one source file available of a repository of
near-duplicate revisions), so the fixed table is taken from the spec:
Low→1.0, Medium→0.75, High→0.45 and anything unrecognized→Medium's
0.75. -/
def risk_multiplier (category : String) : ℚ :=
  if category = "Low" then 1.0
  else if category = "Medium" then 0.75
  else if category = "High" then 0.45
  else 0.75

/-- The Technical domain's declared risk category: its `risk_level` field
(a missing or non-string field counts as unrecognized). -/
def declared_risk (tech_data : List (String × PyVal)) : String :=
  match lookupKV "risk_level" tech_data with
  | some (.str s) => s
  | _ => ""

/-- Modelled from the spec: §4.4's `risk_adjusted_score =
round(overall_score * risk_multiplier, 1)`, absent from
`src/trophi_app.py`. -/
def risk_adjusted_score (market_data tech_data fin_data strategy_data : List (String × PyVal)) : ℚ :=
  pyRound1 (overall_score market_data tech_data fin_data strategy_data *
    risk_multiplier (declared_risk tech_data))

/-! ### The pipeline's `used_fallback` flag (lines 277-371, 433) -/

/-- Outcome of the four generator calls of one analysis run: `none` models
`client.chat_completion` raising (collaborator failure); `some t` is the
raw response text. -/
structure GenOutcome where
  market : Option String
  tech : Option String
  fin : Option String
  strat : Option String

/-- Phases 1, 2 and 4: on generator failure the `except` arm installs the
whole fallback dict and sets `used_fallback`; otherwise the response is
reconciled by `parse_json_safely` and the flag is untouched (the
success-path `st.write` accesses cannot raise there, because the fill
guarantees the accessed keys). -/
def phaseResult (t : Option String) (fb : List (String × PyVal)) :
    List (String × PyVal) × Bool :=
  match t with
  | none => (fb, true)
  | some txt => (parse_json_safely txt fb, false)

/-- Does the access `fin_data['base']['arr']` succeed?  The phase-3
success message (line 345) performs exactly this access. -/
def finAccessOk (d : List (String × PyVal)) : Bool :=
  match lookupKV "base" d with
  | some (.obj b) => (lookupKV "arr" b).isSome
  | _ => false

/-- Phase 3: like the other phases, except that the success-path
`st.write` dereferences `fin_data['base']['arr']`; when that raises
(`base` present but not a dict containing `arr`) the `except` arm installs
`FALLBACK_FINANCIAL` and sets the flag. -/
def finPhaseResult (t : Option String) : List (String × PyVal) × Bool :=
  match t with
  | none => (FALLBACK_FINANCIAL, true)
  | some txt =>
    let d := parse_json_safely txt FALLBACK_FINANCIAL
    if finAccessOk d then (d, false) else (FALLBACK_FINANCIAL, true)

/-- `st.session_state.used_fallback` at the end of the run, emitted as the
`used_fallback` field of `ai_data` (line 433): starts as `False` (line
283) and is set only in the four phase-level `except` arms. -/
def used_fallback (g : GenOutcome) : Bool :=
  (phaseResult g.market FALLBACK_MARKET).2 || (phaseResult g.tech FALLBACK_TECH).2 ||
    (finPhaseResult g.fin).2 || (phaseResult g.strat FALLBACK_STRATEGY).2

/-- The slice of the C5 counterexample: one opening and two closing
braces. -/
def braceCexSlice : List Char := "\x7b\"a\": 1\x7d\x7d".data

/-- A reconciled financial dict whose base-case conversion is 30, a value
the generator can return and that reconciliation keeps verbatim (used by
the C1 counterexample). -/
def finHighConv : List (String × PyVal) :=
  parse_json_safely "\x7b\"base\": \x7b\"conversion\": 30, \"arr\": \"$1M\"\x7d\x7d"
    FALLBACK_FINANCIAL

/-! ### Sanity checks of the embedding on concrete inputs -/

example : json_loads "\x7b\"a\": 1\x7d" = some (.obj [("a", .int 1)]) := by rfl

example : json_loads " \x7b\"a\": 1.5, \"b\": [true, null, \"x\"]\x7d " =
    some (.obj [("a", .float (3/2)), ("b", .arr [.bool true, .null, .str "x"])]) := by rfl

example : json_loads "\x7b\"a\": 1\x7d\x7d" = none := by rfl

example : json_loads "\x7b\"a\": 1, \"b\": \x7b\"c\": 2\x7d\x7d" =
    some (.obj [("a", .int 1), ("b", .obj [("c", .int 2)])]) := by rfl

example : extractObj "\x7b\"a\": 1, \"b\": \x7b\"c\": 2\x7d" =
    some (.obj [("a", .int 1), ("b", .obj [("c", .int 2)])]) := by rfl

example : extractObj "Sure! Here is the JSON: \x60\x60\x60json \x7b\"tam\": \"$25M\"\x7d \x60\x60\x60" =
    some (.obj [("tam", .str "$25M")]) := by rfl

example : parse_json_safely "I cannot provide this information." FALLBACK_STRATEGY =
    FALLBACK_STRATEGY := by rfl

example : lookupKV "sam" (parse_json_safely "\x7b\"sam\": \"$XM\"\x7d" FALLBACK_MARKET) =
    some (.str "$25M") := by rfl

example : users FALLBACK_MARKET = 25000 := by rfl

example : overall_score FALLBACK_MARKET FALLBACK_TECH FALLBACK_FINANCIAL FALLBACK_STRATEGY =
    517/10 := by rfl

example : risk_adjusted_score FALLBACK_MARKET FALLBACK_TECH FALLBACK_FINANCIAL FALLBACK_STRATEGY =
    388/10 := by rfl

example : parse_cost_to_number (.str "$14,400") = 14400 := by rfl

example : parse_cost_to_number (.str "$14.4K") = 14400 := by rfl

example : parse_cost_to_number (.str "1.2M") = 1200000 := by rfl

example : parse_cost_to_number (.str "-5") = -5 := by rfl

example : safe_int (.str "-5") 0 = 5 := by rfl

example : safe_int (.str "$14.4K") 0 = 144 := by rfl

/-! ### Lookup and fill lemmas -/

theorem lookupKV_append_some (k : String) (d l : List (String × PyVal))
    (h : (lookupKV k d).isSome = true) : lookupKV k (d ++ l) = lookupKV k d := by
  induction d with
  | nil => simp [lookupKV] at h
  | cons kv rest ih =>
    obtain ⟨k1, v1⟩ := kv
    by_cases hk : k1 = k
    · simp [lookupKV, hk]
    · simp only [lookupKV, if_neg hk] at h
      simp only [List.cons_append, lookupKV, if_neg hk]
      exact ih h

theorem lookupKV_append_none (k : String) (d l : List (String × PyVal))
    (h : lookupKV k d = none) : lookupKV k (d ++ l) = lookupKV k l := by
  induction d with
  | nil => rfl
  | cons kv rest ih =>
    obtain ⟨k1, v1⟩ := kv
    by_cases hk : k1 = k
    · simp [lookupKV, hk] at h
    · simp only [lookupKV, if_neg hk] at h
      simp only [List.cons_append, lookupKV, if_neg hk]
      exact ih h

theorem fillMissing_cons (d : List (String × PyVal)) (kv : String × PyVal)
    (fb : List (String × PyVal)) :
    fillMissing d (kv :: fb) =
      fillMissing (if (lookupKV kv.1 d).isSome then d else d ++ [kv]) fb := rfl

/-- Keys already present pass through the fill untouched, value included. -/
theorem fill_present (fb : List (String × PyVal)) :
    ∀ (d : List (String × PyVal)) (k : String), (lookupKV k d).isSome = true →
      lookupKV k (fillMissing d fb) = lookupKV k d := by
  induction fb with
  | nil => intro d k _; rfl
  | cons kv fb ih =>
    intro d k h
    rw [fillMissing_cons]
    by_cases hs : (lookupKV kv.1 d).isSome = true
    · rw [if_pos hs]
      exact ih d k h
    · rw [if_neg hs]
      have hds : lookupKV k (d ++ [kv]) = lookupKV k d := lookupKV_append_some k d [kv] h
      rw [ih (d ++ [kv]) k (by rw [hds]; exact h), hds]

/-- Keys absent from the parsed dict receive the fallback's value. -/
theorem fill_absent (fb : List (String × PyVal)) :
    ∀ (d : List (String × PyVal)) (k : String), lookupKV k d = none →
      lookupKV k (fillMissing d fb) = lookupKV k fb := by
  induction fb with
  | nil => intro d k h; exact h
  | cons kv fb ih =>
    intro d k h
    obtain ⟨k1, v1⟩ := kv
    rw [fillMissing_cons]
    by_cases hk : k1 = k
    · have hnone : lookupKV k1 d = none := by rw [hk]; exact h
      rw [if_neg (by rw [hnone]; simp)]
      have hsome : lookupKV k (d ++ [(k1, v1)]) = some v1 := by
        rw [lookupKV_append_none k d _ h]
        simp [lookupKV, hk]
      rw [fill_present fb _ k (by rw [hsome]; rfl), hsome]
      simp [lookupKV, hk]
    · have hstep : lookupKV k (if (lookupKV k1 d).isSome then d else d ++ [(k1, v1)]) = none := by
        split
        · exact h
        · rw [lookupKV_append_none k d _ h]
          simp [lookupKV, hk]
      rw [ih _ k hstep]
      simp [lookupKV, hk]

/-- Every key of the fallback is present after the fill. -/
theorem fill_isSome (fb d : List (String × PyVal)) (k : String)
    (h : (lookupKV k fb).isSome = true) :
    (lookupKV k (fillMissing d fb)).isSome = true := by
  cases hd : lookupKV k d with
  | some v => rw [fill_present fb d k (by rw [hd]; rfl), hd]; rfl
  | none => rw [fill_absent fb d k hd]; exact h

theorem lookupKV_map (k : String) (g : PyVal → PyVal) (kvs : List (String × PyVal)) :
    lookupKV k (kvs.map fun kv => (kv.1, g kv.2)) = (lookupKV k kvs).map g := by
  induction kvs with
  | nil => rfl
  | cons kv rest ih =>
    obtain ⟨k1, v1⟩ := kv
    by_cases hk : k1 = k
    · simp [lookupKV, hk]
    · simp [lookupKV, hk, ih]

theorem replacePlaceholders_str (fuel : Nat) (s : String) :
    replacePlaceholders fuel (.str s) = .str (applyPlaceholders s) := by
  cases fuel <;> rfl

/-! ### C4, C5, C6, C7, C8 -/

/-- C4.  For every raw text and fallback dict, reconciliation returns a
mapping containing every key declared in the fallback; `parse_json_safely`
is a total Lean function (the source's bare `except` arm), so no exception
escapes.  Covers empty objects and texts with no object at all, where the
whole fallback dict is returned. -/
theorem reconciliation_total (text : String) (fb : List (String × PyVal)) (k : String)
    (h : (lookupKV k fb).isSome = true) :
    (lookupKV k (parse_json_safely text fb)).isSome = true := by
  unfold parse_json_safely
  cases hx : extractObj text with
  | none => exact h
  | some v =>
    cases v with
    | obj kvs => exact fill_isSome _ _ _ h
    | null => exact h
    | bool b => exact h
    | int n => exact h
    | float q => exact h
    | str s => exact h
    | arr xs => exact h

theorem reconciliation_total_witness :
    (lookupKV "tam" FALLBACK_MARKET).isSome = true ∧
      (lookupKV "tam" (parse_json_safely "no json here" FALLBACK_MARKET)).isSome = true :=
  ⟨by rfl, reconciliation_total "no json here" FALLBACK_MARKET "tam" (by rfl)⟩

/-- C5 (amended).  The brace repair only ever appends closing braces: when
opening braces outnumber closing ones the deficit of closing braces is
appended, and when closing braces outnumber opening ones the slice is
passed to the final parse unchanged — the source has no prepend branch. -/
theorem brace_repair_append_only (cs : List Char) :
    (cs.count '\x7d' ≤ cs.count '\x7b' →
      repairBraces cs = cs ++ List.replicate (cs.count '\x7b' - cs.count '\x7d') '\x7d') ∧
    (cs.count '\x7b' ≤ cs.count '\x7d' → repairBraces cs = cs) := by
  unfold repairBraces
  constructor
  · intro _
    split
    · rfl
    · next hn =>
      have he : cs.count '\x7b' - cs.count '\x7d' = 0 := by omega
      rw [he]
      simp
  · intro h
    split
    · next hgt => omega
    · rfl

theorem brace_repair_append_only_witness :
    ("\x7b\"x\": 1".data.count '\x7d' ≤ "\x7b\"x\": 1".data.count '\x7b' ∧
      repairBraces "\x7b\"x\": 1".data =
        "\x7b\"x\": 1".data ++
          List.replicate ("\x7b\"x\": 1".data.count '\x7b' - "\x7b\"x\": 1".data.count '\x7d')
            '\x7d') ∧
    ("\"y\": 2\x7d".data.count '\x7b' ≤ "\"y\": 2\x7d".data.count '\x7d' ∧
      repairBraces "\"y\": 2\x7d".data = "\"y\": 2\x7d".data) :=
  ⟨⟨by decide, (brace_repair_append_only _).1 (by decide)⟩,
   ⟨by decide, (brace_repair_append_only _).2 (by decide)⟩⟩

/-- C5 counterexample.  On a slice where closing braces outnumber opening
ones, the repaired string is the slice itself: the deficit of opening
braces is *not* prepended, contrary to the claim. -/
theorem brace_repair_no_prepend :
    braceCexSlice.count '\x7d' = 2 ∧ braceCexSlice.count '\x7b' = 1 ∧
      repairBraces braceCexSlice = braceCexSlice ∧
      repairBraces braceCexSlice ≠ '\x7b' :: braceCexSlice :=
  ⟨by rfl, by rfl, by rfl, by decide⟩

/-- C6.  On the text `{"a": 1, "b": {"c": 2}` with one missing top-level
closing brace, the repair appends exactly one closing brace to the slice
and extraction succeeds with the expected mapping. -/
theorem extraction_repair_example :
    repairBraces "\x7b\"a\": 1, \"b\": \x7b\"c\": 2\x7d".data =
        "\x7b\"a\": 1, \"b\": \x7b\"c\": 2\x7d".data ++ ['\x7d'] ∧
      extractObj "\x7b\"a\": 1, \"b\": \x7b\"c\": 2\x7d" =
        some (.obj [("a", .int 1), ("b", .obj [("c", .int 2)])]) :=
  ⟨by rfl, by rfl⟩

/-- C7 (amended).  A field whose extracted value is a string — placeholder
or not — never receives the schema's fallback value for the field: the
string is kept, with each recognized placeholder replaced *inside* it by
the fixed default of `placeholder_map`. -/
theorem placeholder_replaced_not_fallback (text : String)
    (fb kvs : List (String × PyVal)) (k s : String)
    (hx : extractObj text = some (.obj kvs)) (hk : lookupKV k kvs = some (.str s)) :
    lookupKV k (parse_json_safely text fb) = some (.str (applyPlaceholders s)) := by
  unfold parse_json_safely
  rw [hx]
  have hmap :
      lookupKV k (kvs.map fun kv => (kv.1, replacePlaceholders (2 * text.length + 16) kv.2)) =
        some (replacePlaceholders (2 * text.length + 16) (.str s)) := by
    rw [lookupKV_map, hk]
    rfl
  rw [fill_present fb _ k (by rw [hmap]; rfl), hmap, replacePlaceholders_str]

theorem placeholder_replaced_not_fallback_witness :
    extractObj "\x7b\"tam\": \"$XM\"\x7d" = some (.obj [("tam", .str "$XM")]) ∧
      lookupKV "tam" (parse_json_safely "\x7b\"tam\": \"$XM\"\x7d" FALLBACK_MARKET) =
        some (.str (applyPlaceholders "$XM")) ∧
      applyPlaceholders "$XM" = "$25M" :=
  ⟨by rfl, placeholder_replaced_not_fallback _ _ _ _ _ (by rfl) (by rfl), by rfl⟩

/-- C7 counterexample.  The raw value `"$XM"` for `sam` is a recognized
placeholder, yet the reconciled field holds the placeholder-map default
`$25M`, not the schema's declared fallback `$12M` for `sam`. -/
theorem placeholder_value_not_schema_fallback :
    lookupKV "sam" (parse_json_safely "\x7b\"sam\": \"$XM\"\x7d" FALLBACK_MARKET) =
        some (.str "$25M") ∧
      lookupKV "sam" FALLBACK_MARKET = some (.str "$12M") ∧
      ("$25M" : String) ≠ "$12M" :=
  ⟨by rfl, by rfl, by decide⟩

/-- C8 (amended).  The fallback fill is shallow: a top-level key present in
the parsed dict keeps its value verbatim (no recursion into nested
sub-objects), and only a key absent at top level receives the fallback's
(complete) value for it. -/
theorem fill_is_shallow (d fb : List (String × PyVal)) (k : String) :
    ((lookupKV k d).isSome = true → lookupKV k (fillMissing d fb) = lookupKV k d) ∧
      (lookupKV k d = none → lookupKV k (fillMissing d fb) = lookupKV k fb) :=
  ⟨fill_present fb d k, fill_absent fb d k⟩

theorem fill_is_shallow_witness :
    lookupKV "base" (fillMissing [("base", PyVal.int 7)] FALLBACK_FINANCIAL) =
        lookupKV "base" [("base", PyVal.int 7)] ∧
      lookupKV "bull" (fillMissing [("base", PyVal.int 7)] FALLBACK_FINANCIAL) =
        lookupKV "bull" FALLBACK_FINANCIAL :=
  ⟨(fill_is_shallow _ _ _).1 (by rfl), (fill_is_shallow _ _ _).2 (by rfl)⟩

/-- C8 counterexample.  Reconciling `{"base": {"conversion": 2}}` against
`FALLBACK_FINANCIAL` keeps `base` verbatim: the sub-fields `arr`,
`payback`, `npv`, `ltv` declared in the nested fallback are *not* filled
in. -/
theorem nested_subfield_not_filled :
    lookupKV "base"
        (parse_json_safely "\x7b\"base\": \x7b\"conversion\": 2\x7d\x7d" FALLBACK_FINANCIAL) =
      some (.obj [("conversion", .int 2)]) ∧
      lookupKV "arr" [("conversion", PyVal.int 2)] = none :=
  ⟨by rfl, by rfl⟩

/-! ### Round-half-even lemmas -/

theorem roundHalfEven_nonneg {q : ℚ} (h : 0 ≤ q) : 0 ≤ roundHalfEven q := by
  have hf : (0:ℤ) ≤ ⌊q⌋ := Int.floor_nonneg.mpr h
  unfold roundHalfEven
  split_ifs <;> omega

theorem roundHalfEven_le_int {q : ℚ} {n : ℤ} (h : q ≤ (n:ℚ)) : roundHalfEven q ≤ n := by
  have hf : ⌊q⌋ ≤ n := by
    have h2 := Int.floor_le_floor h
    simpa using h2
  have hlt : (1:ℚ)/2 ≤ q - (⌊q⌋:ℚ) → ⌊q⌋ < n := by
    intro h12
    rcases lt_or_eq_of_le hf with hl | heq
    · exact hl
    · exfalso
      have hc : ((⌊q⌋:ℤ):ℚ) = (n:ℚ) := by rw [heq]
      have hq : q - ((⌊q⌋:ℤ):ℚ) ≤ 0 := by rw [hc]; linarith
      linarith
  unfold roundHalfEven
  split_ifs with h1 h2 h3
  · exact hf
  · have := hlt (le_of_lt h2)
    omega
  · exact hf
  · have := hlt (le_of_not_lt h1)
    omega

/-! ### C1 -/

/-- C1 (amended).  The code applies no clamp: `overall_score` is exactly
`round(sum of the four sub-scores, 1)` and can exceed 100 (see the
counterexample).  What does hold on every reconciled quadruple whose
base-case conversion and fit score are non-negative: `0 ≤ overall_score`,
and the (spec-modelled) `risk_adjusted_score` never exceeds
`overall_score`, because all risk multipliers are at most 1. -/
theorem scoring_bounds_amended (md td fd sd : List (String × PyVal))
    (hconv : 0 ≤ base_conversion fd) (hfit : 0 ≤ fit_score_val sd) :
    0 ≤ overall_score md td fd sd ∧
      risk_adjusted_score md td fd sd ≤ overall_score md td fd sd := by
  have hm : 0 ≤ market_score md := by
    have h1 : (0:ℚ) ≤ min 10 ((users md : ℚ) / 10000) :=
      le_min (by norm_num) (by positivity)
    unfold market_score
    exact mul_nonneg h1 (by norm_num)
  have ht : 0 ≤ tech_score td := by
    have h1 : min ((tech_hours td : ℚ) / 48) 10 ≤ 10 := min_le_right _ _
    have h2 : (0:ℚ) ≤ 10 - min ((tech_hours td : ℚ) / 48) 10 := by linarith
    unfold tech_score
    exact mul_nonneg h2 (by norm_num)
  have hr : 0 ≤ revenue_score fd := by
    have h1 : (0:ℚ) ≤ base_conversion fd * 10 / 1.5 :=
      div_nonneg (mul_nonneg hconv (by norm_num)) (by norm_num)
    unfold revenue_score
    exact mul_nonneg h1 (by norm_num)
  have hst : 0 ≤ strategy_score sd := by
    have h1 : (0:ℚ) ≤ (fit_score_val sd : ℚ) := by exact_mod_cast hfit
    unfold strategy_score
    exact mul_nonneg h1 (by norm_num)
  have hs : 0 ≤ market_score md + tech_score td + revenue_score fd + strategy_score sd := by
    linarith
  have hk : (0:ℤ) ≤ roundHalfEven
      ((market_score md + tech_score td + revenue_score fd + strategy_score sd) * 10) :=
    roundHalfEven_nonneg (mul_nonneg hs (by norm_num))
  constructor
  · unfold overall_score pyRound1
    exact div_nonneg (by exact_mod_cast hk) (by norm_num)
  · have hm1 : risk_multiplier (declared_risk td) ≤ 1 := by
      unfold risk_multiplier
      split_ifs <;> norm_num
    unfold risk_adjusted_score overall_score pyRound1
    have harg :
        (roundHalfEven
            ((market_score md + tech_score td + revenue_score fd + strategy_score sd) * 10) : ℚ) /
              10 * risk_multiplier (declared_risk td) * 10 =
          (roundHalfEven
            ((market_score md + tech_score td + revenue_score fd + strategy_score sd) * 10) : ℚ) *
            risk_multiplier (declared_risk td) := by
      ring
    rw [harg]
    have hle := roundHalfEven_le_int (mul_le_of_le_one_right (α := ℚ) (by exact_mod_cast hk) hm1)
    have hcast :
        ((roundHalfEven
            ((roundHalfEven
              ((market_score md + tech_score td + revenue_score fd + strategy_score sd) * 10) : ℚ) *
              risk_multiplier (declared_risk td)) : ℤ) : ℚ) ≤
          ((roundHalfEven
            ((market_score md + tech_score td + revenue_score fd + strategy_score sd) * 10) : ℤ) : ℚ) := by
      exact_mod_cast hle
    gcongr

theorem scoring_bounds_amended_witness :
    0 ≤ base_conversion FALLBACK_FINANCIAL ∧ 0 ≤ fit_score_val FALLBACK_STRATEGY ∧
      (0 ≤ overall_score FALLBACK_MARKET FALLBACK_TECH FALLBACK_FINANCIAL FALLBACK_STRATEGY ∧
        risk_adjusted_score FALLBACK_MARKET FALLBACK_TECH FALLBACK_FINANCIAL FALLBACK_STRATEGY ≤
          overall_score FALLBACK_MARKET FALLBACK_TECH FALLBACK_FINANCIAL FALLBACK_STRATEGY) :=
  ⟨by decide, by decide,
    scoring_bounds_amended FALLBACK_MARKET FALLBACK_TECH FALLBACK_FINANCIAL FALLBACK_STRATEGY
      (by decide) (by decide)⟩

/-- C1 counterexample.  A reconciled quadruple (three full-fallback domains
plus a financial response with base conversion 30) yields
`overall_score = 535`, far above 100: the claimed clamp into `[0, 100]`
does not exist in the code. -/
theorem overall_score_exceeds_100 :
    overall_score FALLBACK_MARKET FALLBACK_TECH finHighConv FALLBACK_STRATEGY = 535 ∧
      ¬ overall_score FALLBACK_MARKET FALLBACK_TECH finHighConv FALLBACK_STRATEGY ≤ 100 := by
  have h : overall_score FALLBACK_MARKET FALLBACK_TECH finHighConv FALLBACK_STRATEGY = 535 := by
    rfl
  refine ⟨h, ?_⟩
  rw [h]
  norm_num

/-! ### C2 -/

/-- C2 (spec-modelled; `risk_adjusted_score` does not occur in
`src/trophi_app.py`).  The risk-adjusted score is
`round(overall_score * risk_multiplier, 1)` with the multiplier drawn from
the Technical domain's declared risk category by the fixed table Low→1.0,
Medium→0.75, High→0.45, and every unrecognized category falls back to
Medium's 0.75. -/
theorem risk_adjusted_table (md td fd sd : List (String × PyVal)) :
    risk_adjusted_score md td fd sd =
        pyRound1 (overall_score md td fd sd * risk_multiplier (declared_risk td)) ∧
      risk_multiplier "Low" = 1.0 ∧ risk_multiplier "Medium" = 0.75 ∧
        risk_multiplier "High" = 0.45 ∧
        ∀ c : String, c ≠ "Low" → c ≠ "Medium" → c ≠ "High" → risk_multiplier c = 0.75 := by
  refine ⟨rfl, by rfl, by rfl, by rfl, ?_⟩
  intro c h1 h2 h3
  unfold risk_multiplier
  rw [if_neg h1, if_neg h2, if_neg h3]

theorem risk_adjusted_table_witness : risk_multiplier "Extreme" = 0.75 :=
  (risk_adjusted_table [] [] [] []).2.2.2.2 "Extreme" (by decide) (by decide) (by decide)

/-! ### C3 -/

/-- C3 (amended).  `used_fallback` records only phase-level exceptions
(a failing generator call, or phase 3's nested `base`/`arr` access
failing); field-level fallback substitution inside `parse_json_safely` —
for `active_users` in particular — never sets it.  Whenever all four
generator calls return text and the reconciled financial dict passes the
`base`/`arr` access, the emitted flag is false, whatever was
substituted. -/
theorem used_fallback_only_phase_errors (mt tt ft stx : String)
    (hfin : finAccessOk (parse_json_safely ft FALLBACK_FINANCIAL) = true) :
    used_fallback ⟨some mt, some tt, some ft, some stx⟩ = false := by
  unfold used_fallback phaseResult finPhaseResult
  simp [hfin]

theorem used_fallback_only_phase_errors_witness :
    finAccessOk
        (parse_json_safely "\x7b\"base\": \x7b\"arr\": \"$9K\"\x7d\x7d" FALLBACK_FINANCIAL) =
      true ∧
      used_fallback ⟨some "\x7b\"tam\": \"$3M\"\x7d", some "\x7b\"hours\": 40\x7d",
        some "\x7b\"base\": \x7b\"arr\": \"$9K\"\x7d\x7d", some "\x7b\"fit_score\": 7\x7d"⟩ =
        false :=
  ⟨by rfl, used_fallback_only_phase_errors _ _ _ _ (by rfl)⟩

/-- C3 counterexample.  The market response parses but lacks
`active_users`, so the reconciled field is supplied from the fallback; all
four generator calls succeed and phase 3's access succeeds — yet the
emitted `used_fallback` is false, contrary to the claim. -/
theorem field_fallback_leaves_flag_false :
    extractObj "\x7b\"tam\": \"$2M\"\x7d" = some (.obj [("tam", .str "$2M")]) ∧
      lookupKV "active_users" (parse_json_safely "\x7b\"tam\": \"$2M\"\x7d" FALLBACK_MARKET) =
        some (.str "Undisclosed (est. 10K-50K from similar titles)") ∧
      used_fallback ⟨some "\x7b\"tam\": \"$2M\"\x7d", some "\x7b\"hours\": 41\x7d",
        some "\x7b\"base\": \x7b\"arr\": \"$8K\"\x7d\x7d", some "\x7b\"fit_score\": 6\x7d"⟩ =
        false :=
  ⟨by rfl, by rfl, by rfl⟩

/-! ### Character-level lemmas for C9 -/

theorem mem_of_mem_dropWhile {p : Char → Bool} {cs : List Char} {c : Char}
    (h : c ∈ cs.dropWhile p) : c ∈ cs := by
  induction cs with
  | nil => simp at h
  | cons a t ih =>
    rw [List.dropWhile_cons] at h
    split at h
    · exact List.mem_cons_of_mem _ (ih h)
    · exact h

theorem pyStrip_subset (cs : List Char) (c : Char) (h : c ∈ pyStrip cs) : c ∈ cs := by
  unfold pyStrip at h
  rw [List.mem_reverse] at h
  have h2 := mem_of_mem_dropWhile h
  rw [List.mem_reverse] at h2
  exact mem_of_mem_dropWhile h2

theorem splitSign_subset (cs : List Char) (c : Char) (h : c ∈ (splitSign cs).2) : c ∈ cs := by
  unfold splitSign at h
  split at h
  · exact List.mem_cons_of_mem _ h
  · exact List.mem_cons_of_mem _ h
  · exact h

theorem takeWhile_isDigit_nil {cs : List Char} (h : ∀ c ∈ cs, c.isDigit = false) :
    cs.takeWhile Char.isDigit = [] := by
  cases cs with
  | nil => rfl
  | cons a t =>
    rw [List.takeWhile_cons]
    simp [h a (List.mem_cons_self a t)]

/-- A string with no digit character is not a Python float literal. -/
theorem pyFloat_none_of_no_digit (s : String) (h : ∀ c ∈ s.data, c.isDigit = false) :
    pyFloat? s = none := by
  have hs : ∀ c ∈ pyStrip s.data, c.isDigit = false :=
    fun c hc => h c (pyStrip_subset s.data c hc)
  have h1 : ∀ c ∈ (splitSign (pyStrip s.data)).2, c.isDigit = false :=
    fun c hc => hs c (splitSign_subset _ c hc)
  have hip : (splitSign (pyStrip s.data)).2.takeWhile Char.isDigit = [] :=
    takeWhile_isDigit_nil h1
  have htail : ∀ c ∈ (splitSign (pyStrip s.data)).2.tail, c.isDigit = false :=
    fun c hc => h1 c (List.mem_of_mem_tail hc)
  unfold pyFloat?
  dsimp only
  rw [hip]
  simp only [List.length_nil, List.drop_zero]
  rw [if_pos]
  refine ⟨rfl, ?_⟩
  split
  · rw [takeWhile_isDigit_nil htail]
    rfl
  · rfl

theorem replaceSub_subset (pat : List Char) (f : Nat) :
    ∀ (cs : List Char) (c : Char), c ∈ replaceSub pat [] f cs → c ∈ cs := by
  induction f with
  | zero =>
    intro cs c hc
    simpa [replaceSub] using hc
  | succ f ih =>
    intro cs c hc
    cases cs with
    | nil => simp [replaceSub] at hc
    | cons a t =>
      rw [replaceSub] at hc
      split at hc
      · simp only [List.nil_append] at hc
        exact List.mem_of_mem_drop (ih _ c hc)
      · rcases List.mem_cons.mp hc with h1 | h2
        · exact List.mem_cons.mpr (Or.inl h1)
        · exact List.mem_cons_of_mem _ (ih _ c h2)

theorem pyReplace_empty_subset (s pat : String) (c : Char)
    (h : c ∈ (pyReplace s pat "").data) : c ∈ s.data :=
  replaceSub_subset pat.data (s.length + 1) s.data c h

/-! ### C9 and C10 -/

/-- C9 (amended).  `parse_cost_to_number` never raises (it is a total
function; the source wraps its body in a bare `try`/`except`), and every
input that cannot be parsed as a magnitude — in particular any digit-free
string — deterministically returns the function's fixed built-in fallback
`0` (the source takes no fallback argument).  Negative magnitudes, however,
are *not* rejected: they parse to the corresponding negative number. -/
theorem cost_coercion_fallback_amended :
    (∀ s : String, (∀ c ∈ s.data, c.isDigit = false) → parse_cost_to_number (.str s) = 0) ∧
      parse_cost_to_number (.str "-5") = -5 ∧ parse_cost_to_number (.str "-1.2K") = -1200 := by
  refine ⟨?_, by rfl, by rfl⟩
  intro s h
  have hclean : ∀ c ∈ (pyReplace (pyReplace (pyReplace s "$" "") "," "") " " "").data,
      c.isDigit = false := by
    intro c hc
    exact h c (pyReplace_empty_subset _ _ c (pyReplace_empty_subset _ _ c
      (pyReplace_empty_subset _ _ c hc)))
  unfold parse_cost_to_number
  dsimp only
  rw [show pyStr (PyVal.str s) = s from rfl]
  split
  · rw [pyFloat_none_of_no_digit _ (fun c hc => hclean c (pyReplace_empty_subset _ _ c hc))]
  · split
    · rw [pyFloat_none_of_no_digit _ (fun c hc => hclean c (pyReplace_empty_subset _ _ c hc))]
    · rw [pyFloat_none_of_no_digit _ hclean]

theorem cost_coercion_fallback_amended_witness :
    parse_cost_to_number (.str "N/A") = 0 :=
  cost_coercion_fallback_amended.1 "N/A" (by decide)

/-- C9 counterexample.  A negative magnitude is parsed and returned, not
replaced by the fallback `0`. -/
theorem negative_cost_parsed :
    parse_cost_to_number (.str "-5") = -5 ∧ (-5 : ℤ) ≠ 0 :=
  ⟨by rfl, by decide⟩

/-- C10.  `safe_int` on a string deletes every non-digit character (minus
signs, points, currency symbols, unit letters, ...) and reads the
remaining digits as a non-negative integer, so `"-5"` coerces to 5 and
`"$14.4K"` to 144; a digit-free string yields the default. -/
theorem safe_int_strips_nondigits :
    (∀ (s : String) (d : ℤ),
        ((digitsOf s).isEmpty = false →
          safe_int (.str s) d = (natOfDigits (digitsOf s) : ℤ) ∧ 0 ≤ safe_int (.str s) d) ∧
          ((digitsOf s).isEmpty = true → safe_int (.str s) d = d)) ∧
      safe_int (.str "-5") 0 = 5 ∧ safe_int (.str "$14.4K") 0 = 144 := by
  refine ⟨fun s d => ⟨fun h => ?_, fun h => ?_⟩, by rfl, by rfl⟩
  · have he : safe_int (.str s) d = (natOfDigits (digitsOf s) : ℤ) := by
      unfold safe_int
      dsimp only
      rw [if_neg (by rw [h]; exact Bool.false_ne_true)]
    exact ⟨he, by rw [he]; exact Int.natCast_nonneg _⟩
  · unfold safe_int
    dsimp only
    rw [if_pos h]

theorem safe_int_strips_nondigits_witness :
    safe_int (.str "x9y") 0 = (natOfDigits (digitsOf "x9y") : ℤ) ∧
      0 ≤ safe_int (.str "x9y") 0 :=
  (safe_int_strips_nondigits.1 "x9y" 0).1 (by rfl)

end Trophi
